import Mathlib

/-!
Shallow embedding of the Pallene Tracer shadow-stack engine (src/ptracer.h).

The engine keeps a bounded, array-backed shadow call stack:

  * `pt_frame` mirrors `pt_frame_t` (a frame type tag, a line number, and a
    union of static details / Lua C-function pointer);
  * `pt_fnstack` mirrors `pt_fnstack_t` (backing storage plus a count);
    the backing storage is modelled as a total function `Int → pt_frame`,
    so that the malloc-ed array together with all out-of-bounds addresses
    is representable and the C code's unguarded index arithmetic can be
    translated verbatim;
  * `pallene_tracer_frameenter`, `pallene_tracer_setline`,
    `pallene_tracer_frameexit` are the three inline operations;
  * `_pallene_tracer_scan` / `_pallene_tracer_finalizer` model the
    unwind finalizer's downward scan; the C `while` loop has no a-priori
    termination guarantee, so the scan takes an explicit fuel parameter
    and returns `none` when the fuel runs out;
  * `pallene_tracer_init` models the registry-based lazy initialisation
    (the `PT_DEBUG` branch), with the Lua registry and userdata heap
    embedded as a small `lua_State` record.

Access-instrumentation functions (`frameenterAccess`, `setlineAccess`,
`frameexitAccess`, `scanAccess`, `finalizerAccess`) record the array
indices each operation reads or writes, so bounds-safety claims can be
stated as: every recorded index lies in `[0, PALLENE_TRACER_MAX_CALLSTACK)`.
-/

/-- `#define PALLENE_TRACER_MAX_CALLSTACK 100000` -/
def PALLENE_TRACER_MAX_CALLSTACK : Int := 100000

/-- `typedef enum frame_type { ..._C, ..._LUA } frame_type_t;` -/
inductive frame_type where
  | PALLENE_TRACER_FRAME_TYPE_C
  | PALLENE_TRACER_FRAME_TYPE_LUA
deriving DecidableEq

/-- `typedef struct pt_fn_details { const char *fn_name; const char *filename; }` -/
structure pt_fn_details where
  fn_name : String
  filename : String
deriving DecidableEq

/-- The `union { pt_fn_details_t *details; lua_CFunction c_fnptr; } shared`
field of a frame.  C function pointers are opaque; we model them by a
natural-number identity. -/
inductive pt_frame_shared where
  | details (d : pt_fn_details)
  | c_fnptr (p : Nat)
deriving DecidableEq

/-- `typedef struct pt_frame { frame_type_t type; int line; union ... shared; }` -/
structure pt_frame where
  type : frame_type
  line : Int
  shared : pt_frame_shared
deriving DecidableEq

/-- `typedef struct pt_fnstack { pt_frame_t *stack; int count; }`.
The heap array is a total function on `Int`: indices `0 ..
PALLENE_TRACER_MAX_CALLSTACK - 1` are the allocated slots, every other
index is out-of-bounds memory. -/
structure pt_fnstack where
  stack : Int → pt_frame
  count : Int

/-- Pointwise array update: `stack[i] = f`. -/
def writeFrame (st : Int → pt_frame) (i : Int) (f : pt_frame) : Int → pt_frame :=
  fun j => if j = i then f else st j

/-- `pallene_tracer_frameenter` (ptracer.h lines 186-192):
if `count < PALLENE_TRACER_MAX_CALLSTACK` write the frame at index
`count`; in every case increment `count`. -/
def pallene_tracer_frameenter (fnstack : pt_fnstack) (frame : pt_frame) : pt_fnstack :=
  { stack :=
      if fnstack.count < PALLENE_TRACER_MAX_CALLSTACK then
        writeFrame fnstack.stack fnstack.count frame
      else
        fnstack.stack,
    count := fnstack.count + 1 }

/-- `pallene_tracer_setline` (ptracer.h lines 195-198):
if `count != 0` overwrite the `line` field of `stack[count - 1]`. -/
def pallene_tracer_setline (fnstack : pt_fnstack) (line : Int) : pt_fnstack :=
  if fnstack.count ≠ 0 then
    { fnstack with
      stack := writeFrame fnstack.stack (fnstack.count - 1)
        { fnstack.stack (fnstack.count - 1) with line := line } }
  else
    fnstack

/-- `pallene_tracer_frameexit` (ptracer.h lines 201-203):
`fnstack->count -= (fnstack->count > 0);` -/
def pallene_tracer_frameexit (fnstack : pt_fnstack) : pt_fnstack :=
  { fnstack with
    count := fnstack.count - (if fnstack.count > 0 then 1 else 0) }

/-- The `while` loop of `_pallene_tracer_finalizer` (ptracer.h lines
230-232): starting at `idx`, decrement while `stack[idx].type !=
PALLENE_TRACER_FRAME_TYPE_LUA`; return the index where the loop stops.
The C loop has no termination guarantee, so the embedding takes fuel and
returns `none` when it runs out. -/
def _pallene_tracer_scan (stack : Int → pt_frame) : Int → Nat → Option Int
  | _, 0 => none
  | idx, fuel + 1 =>
      if (stack idx).type = frame_type.PALLENE_TRACER_FRAME_TYPE_LUA then
        some idx
      else
        _pallene_tracer_scan stack (idx - 1) fuel

/-- `_pallene_tracer_finalizer` (ptracer.h lines 225-238): scan downward
from `count - 1` to the topmost Lua frame and set `count` to its index. -/
def _pallene_tracer_finalizer (fnstack : pt_fnstack) (fuel : Nat) : Option pt_fnstack :=
  match _pallene_tracer_scan fnstack.stack (fnstack.count - 1) fuel with
  | some idx => some { fnstack with count := idx }
  | none => none

/- ---------------- Lua state and lazy initialisation ---------------- -/

/-- Minimal model of the parts of `lua_State` that `pallene_tracer_init`
uses: the userdata heap (addresses are list indices) and the two reserved
registry slots `__PALLENE_TRACER_CONTAINER` (an address when present) and
`__PALLENE_TRACER_FINALIZER` (presence flag). -/
structure lua_State where
  udata : List pt_fnstack
  reg_container : Option Nat
  reg_finalizer : Bool

/-- Dereference a userdata address. -/
def lua_State.getStack (L : lua_State) (addr : Nat) : Option pt_fnstack :=
  L.udata.get? addr

/-- `pallene_tracer_init` (ptracer.h lines 260-308, `PT_DEBUG` branch):
look up `__PALLENE_TRACER_CONTAINER` in the registry; if absent, allocate
a new userdata holding a fresh `pt_fnstack` with `count = 0` (the `mem`
argument models the arbitrary contents of the freshly malloc-ed array),
publish it in the registry together with the finalizer object, and
return its address; if present, return the stored address unchanged. -/
def pallene_tracer_init (L : lua_State) (mem : Int → pt_frame) : lua_State × Nat :=
  match L.reg_container with
  | none =>
      let addr := L.udata.length
      ({ udata := L.udata ++ [{ stack := mem, count := 0 }],
         reg_container := some addr,
         reg_finalizer := true }, addr)
  | some addr => (L, addr)

/-- Push a frame through a userdata reference: dereference `addr` and run
`pallene_tracer_frameenter` on the stack stored there. -/
def frameenterAt (L : lua_State) (addr : Nat) (frame : pt_frame) : lua_State :=
  match L.udata.get? addr with
  | some s => { L with udata := L.udata.set addr (pallene_tracer_frameenter s frame) }
  | none => L

/- ---------------- Access instrumentation ---------------- -/

/-- An array index is in bounds when it addresses one of the
`PALLENE_TRACER_MAX_CALLSTACK` allocated slots. -/
def inBounds (i : Int) : Prop :=
  0 ≤ i ∧ i < PALLENE_TRACER_MAX_CALLSTACK

instance (i : Int) : Decidable (inBounds i) := by
  unfold inBounds; infer_instance

/-- Indices written by `pallene_tracer_frameenter`. -/
def frameenterAccess (fnstack : pt_fnstack) : List Int :=
  if fnstack.count < PALLENE_TRACER_MAX_CALLSTACK then [fnstack.count] else []

/-- Indices read and written by `pallene_tracer_setline`. -/
def setlineAccess (fnstack : pt_fnstack) : List Int :=
  if fnstack.count ≠ 0 then [fnstack.count - 1] else []

/-- Indices accessed by `pallene_tracer_frameexit`: none. -/
def frameexitAccess (_fnstack : pt_fnstack) : List Int := []

/-- Indices read by the finalizer's downward scan (one per loop
iteration, including the stopping index). -/
def scanAccess (stack : Int → pt_frame) : Int → Nat → List Int
  | _, 0 => []
  | idx, fuel + 1 =>
      idx :: (if (stack idx).type = frame_type.PALLENE_TRACER_FRAME_TYPE_LUA then
                []
              else
                scanAccess stack (idx - 1) fuel)

/-- Indices read by `_pallene_tracer_finalizer`. -/
def finalizerAccess (fnstack : pt_fnstack) (fuel : Nat) : List Int :=
  scanAccess fnstack.stack (fnstack.count - 1) fuel

/- ---------------- Sample values (used by witnesses) ---------------- -/

/-- A C-interface frame (`PALLENE_TRACER_C_FRAME`). -/
def cFrame : pt_frame :=
  { type := frame_type.PALLENE_TRACER_FRAME_TYPE_C,
    line := 0,
    shared := pt_frame_shared.details { fn_name := "f", filename := "mod.c" } }

/-- A Lua-interface frame (`PALLENE_TRACER_LUA_FRAME`). -/
def luaFrame : pt_frame :=
  { type := frame_type.PALLENE_TRACER_FRAME_TYPE_LUA,
    line := 0,
    shared := pt_frame_shared.c_fnptr 0 }

/-- Backing array holding `[luaFrame, cFrame, cFrame, cFrame, ...]`. -/
def memLCCC : Int → pt_frame :=
  fun i => if i = 0 then luaFrame else cFrame

/-- Stack with frames `[HostCallback, NativeDetails, NativeDetails,
NativeDetails]` and `count = 4`. -/
def stackLCCC : pt_fnstack :=
  { stack := memLCCC, count := 4 }

/-- Backing array holding `[luaFrame, cFrame, luaFrame, cFrame, ...]`. -/
def memLCLC : Int → pt_frame :=
  fun i => if i = 0 ∨ i = 2 then luaFrame else cFrame

/-- Stack with frames `[HostCallback, NativeDetails, HostCallback,
NativeDetails]` and `count = 4`. -/
def stackLCLC : pt_fnstack :=
  { stack := memLCLC, count := 4 }

/-- A freshly initialised stack: `count = 0`, backing array full of
arbitrary (non-Lua) malloc garbage. -/
def freshFnstack : pt_fnstack :=
  { stack := fun _ => cFrame, count := 0 }

/-- A stack holding exactly one C frame. -/
def oneFrameStack : pt_fnstack :=
  { stack := fun _ => cFrame, count := 1 }

/-- A fresh Lua state: empty userdata heap, empty registry slots. -/
def freshLua : lua_State :=
  { udata := [], reg_container := none, reg_finalizer := false }

/-- Iterated push: `frameenterN s fs n` pushes the frames `fs 0`, …,
`fs (n-1)` in order onto `s`. -/
def frameenterN (s : pt_fnstack) (fs : Nat → pt_frame) : Nat → pt_fnstack
  | 0 => s
  | n + 1 => pallene_tracer_frameenter (frameenterN s fs n) (fs n)

/-- A push/pop operation, for well-nested sequences. -/
inductive PPOp where
  | push (f : pt_frame)
  | pop

/-- Run a sequence of push/pop operations left to right. -/
def runPP (s : pt_fnstack) : List PPOp → pt_fnstack
  | [] => s
  | PPOp.push f :: rest => runPP (pallene_tracer_frameenter s f) rest
  | PPOp.pop :: rest => runPP (pallene_tracer_frameexit s) rest

/-- Well-nested (Dyck-balanced) push/pop sequences: every pop matches a
preceding push of the same sequence. -/
inductive WellNested : List PPOp → Prop
  | nil : WellNested []
  | seq {s t : List PPOp} : WellNested s → WellNested t → WellNested (s ++ t)
  | wrap {s : List PPOp} (f : pt_frame) :
      WellNested s → WellNested (PPOp.push f :: s ++ [PPOp.pop])

/- ---------------- Shared lemmas about the finalizer scan ---------------- -/

/-- If index `i` holds a Lua frame and every index strictly between `i`
and `start` holds a C frame, the scan started at `start` stops exactly at
`i`, given more fuel than the `start - i` iterations it needs. -/
theorem scan_stops_at_topmost_lua (st : Int → pt_frame) (i : Int)
    (hlua : (st i).type = frame_type.PALLENE_TRACER_FRAME_TYPE_LUA) :
    ∀ (fuel : Nat) (start : Int), i ≤ start → (start - i).toNat < fuel →
      (∀ j, i < j → j ≤ start →
        (st j).type = frame_type.PALLENE_TRACER_FRAME_TYPE_C) →
      _pallene_tracer_scan st start fuel = some i := by
  intro fuel
  induction fuel with
  | zero =>
      intro start h1 h2 _
      omega
  | succ n ih =>
      intro start h1 h2 hC
      by_cases hse : start = i
      · subst hse
        simp [_pallene_tracer_scan, hlua]
      · have hlt : i < start := by omega
        have hCs : (st start).type = frame_type.PALLENE_TRACER_FRAME_TYPE_C :=
          hC start hlt le_rfl
        rw [_pallene_tracer_scan, if_neg (by simp [hCs])]
        exact ih (start - 1) (by omega) (by omega)
          (fun j hj1 hj2 => hC j hj1 (by omega))

/-- Every index the scan reads lies between the topmost Lua index `i`
and the starting index. -/
theorem scanAccess_mem_range (st : Int → pt_frame) (i : Int)
    (hlua : (st i).type = frame_type.PALLENE_TRACER_FRAME_TYPE_LUA) :
    ∀ (fuel : Nat) (start : Int), i ≤ start →
      ∀ a ∈ scanAccess st start fuel, i ≤ a ∧ a ≤ start := by
  intro fuel
  induction fuel with
  | zero =>
      intro start _ a ha
      simp [scanAccess] at ha
  | succ n ih =>
      intro start h a ha
      rw [scanAccess] at ha
      rcases List.mem_cons.mp ha with h1 | h2
      · subst h1
        exact ⟨h, le_rfl⟩
      · by_cases hl : (st start).type = frame_type.PALLENE_TRACER_FRAME_TYPE_LUA
        · simp [hl] at h2
        · rw [if_neg hl] at h2
          have hne : start ≠ i := fun he => hl (by rw [he]; exact hlua)
          have hr := ih (start - 1) (by omega) a h2
          omega

/- ---------------- Claim theorems ---------------- -/

/-- Claim C1: on a shadow stack whose frames below `count` include a
Lua-type (HostCallback) frame at index `i`, all frames strictly above
`i` and below `count` being C-type (NativeDetails), one run of the
unwind finalizer scans downward from `count - 1`, stops at `i`, and
returns the same stack with `count` set to `i`: the Lua frame and
everything above it is discarded, and the backing array (hence every
frame below `i`) is untouched. -/
theorem finalizer_unwinds_one_excursion (s : pt_fnstack) (i : Int)
    (h0 : 0 ≤ i) (hic : i < s.count)
    (hlua : (s.stack i).type = frame_type.PALLENE_TRACER_FRAME_TYPE_LUA)
    (htop : ∀ j, i < j → j < s.count →
      (s.stack j).type = frame_type.PALLENE_TRACER_FRAME_TYPE_C) :
    _pallene_tracer_finalizer s s.count.toNat = some { s with count := i } := by
  unfold _pallene_tracer_finalizer
  rw [scan_stops_at_topmost_lua s.stack i hlua s.count.toNat (s.count - 1)
    (by omega) (by omega) (fun j hj1 hj2 => htop j hj1 (by omega))]

/-- Claim C1 witness: from frames `[HostCallback, NativeDetails,
NativeDetails, NativeDetails]` with `count = 4`, the finalizer yields
`count = 0`. -/
theorem finalizer_unwinds_one_excursion_witness :
    _pallene_tracer_finalizer stackLCCC 4 = some { stackLCCC with count := 0 } :=
  finalizer_unwinds_one_excursion stackLCCC 0 (by decide) (by decide) (by decide)
    (fun j hj1 hj2 => by
      have hj4 : j < 4 := hj2
      have : j = 1 ∨ j = 2 ∨ j = 3 := by omega
      rcases this with h | h | h <;> subst h <;> decide)

/-- Claim C6: under the precondition that some index `i` below `count`
holds a Lua-type frame and is the topmost such index, the finalizer's
downward scan terminates with fuel `count - i`: it performs at most
`count - i` loop iterations before stopping at `i`. -/
theorem finalizer_scan_fuel_bound (s : pt_fnstack) (i : Int)
    (h0 : 0 ≤ i) (hic : i < s.count)
    (hlua : (s.stack i).type = frame_type.PALLENE_TRACER_FRAME_TYPE_LUA)
    (htop : ∀ j, i < j → j < s.count →
      (s.stack j).type = frame_type.PALLENE_TRACER_FRAME_TYPE_C) :
    _pallene_tracer_scan s.stack (s.count - 1) (s.count - i).toNat = some i :=
  scan_stops_at_topmost_lua s.stack i hlua (s.count - i).toNat (s.count - 1)
    (by omega) (by omega) (fun j hj1 hj2 => htop j hj1 (by omega))

/-- Claim C6 witness: on `[HostCallback, NativeDetails, HostCallback,
NativeDetails]` with `count = 4` and topmost Lua index `2`, the scan
stops at index `2` within `4 - 2 = 2` iterations. -/
theorem finalizer_scan_fuel_bound_witness :
    _pallene_tracer_scan stackLCLC.stack 3 2 = some 2 :=
  finalizer_scan_fuel_bound stackLCLC 2 (by decide) (by decide) (by decide)
    (fun j hj1 hj2 => by
      have hj4 : j < 4 := hj2
      have : j = 3 := by omega
      subst this
      decide)

/- ---------------- Shared lemmas about iterated pushes ---------------- -/

/-- Pushing `n` frames increments `count` by `n`, whatever the starting
state (pushes past capacity still count). -/
theorem frameenterN_count (s : pt_fnstack) (fs : Nat → pt_frame) :
    ∀ n, (frameenterN s fs n).count = s.count + n := by
  intro n
  induction n with
  | zero => simp [frameenterN]
  | succ n ih =>
      simp only [frameenterN, pallene_tracer_frameenter, ih]
      push_cast
      ring

/-- Slots at or above the capacity bound are never written by pushes. -/
theorem frameenterN_stack_high (s : pt_fnstack) (fs : Nat → pt_frame) (j : Int)
    (hj : PALLENE_TRACER_MAX_CALLSTACK ≤ j) :
    ∀ n, (frameenterN s fs n).stack j = s.stack j := by
  intro n
  induction n with
  | zero => rfl
  | succ n ih =>
      simp only [frameenterN, pallene_tracer_frameenter]
      by_cases h : (frameenterN s fs n).count < PALLENE_TRACER_MAX_CALLSTACK
      · rw [if_pos h]
        unfold writeFrame
        rw [if_neg (by omega)]
        exact ih
      · rw [if_neg h]
        exact ih

/-- Starting from an empty stack, after `n` pushes every in-bounds slot
`j < min n capacity` holds the `j`-th pushed frame. -/
theorem frameenterN_stack_written (s : pt_fnstack) (fs : Nat → pt_frame)
    (h0 : s.count = 0) :
    ∀ (n j : Nat), j < n → (j : Int) < PALLENE_TRACER_MAX_CALLSTACK →
      (frameenterN s fs n).stack j = fs j := by
  intro n
  induction n with
  | zero =>
      intro j hj _
      omega
  | succ n ih =>
      intro j hj hjM
      have hcount : (frameenterN s fs n).count = (n : Int) := by
        rw [frameenterN_count, h0, zero_add]
      simp only [frameenterN, pallene_tracer_frameenter]
      by_cases hje : j = n
      · subst hje
        rw [if_pos (by omega), writeFrame, if_pos (by omega)]
      · have hjn : j < n := by omega
        by_cases hlt : (frameenterN s fs n).count < PALLENE_TRACER_MAX_CALLSTACK
        · rw [if_pos hlt]
          unfold writeFrame
          rw [if_neg (by omega)]
          exact ih j hjn hjM
        · rw [if_neg hlt]
          exact ih j hjn hjM

/- ---------------- Shared lemmas about push/pop sequences ---------------- -/

/-- Running a sequence over an append splits into two runs. -/
theorem runPP_append (a b : List PPOp) :
    ∀ s, runPP s (a ++ b) = runPP (runPP s a) b := by
  induction a with
  | nil => intro s; rfl
  | cons op rest ih =>
      intro s
      cases op with
      | push f => exact ih (pallene_tracer_frameenter s f)
      | pop => exact ih (pallene_tracer_frameexit s)

/-- Every push/pop sequence preserves nonnegativity of `count`. -/
theorem runPP_count_nonneg (ops : List PPOp) :
    ∀ s : pt_fnstack, 0 ≤ s.count → 0 ≤ (runPP s ops).count := by
  induction ops with
  | nil => intro s hs; exact hs
  | cons op rest ih =>
      intro s hs
      cases op with
      | push f =>
          apply ih
          simp only [pallene_tracer_frameenter]
          omega
      | pop =>
          apply ih
          simp only [pallene_tracer_frameexit]
          by_cases h : s.count > 0 <;> simp [h] <;> omega

/-- A well-nested sequence returns `count` to its starting value. -/
theorem runPP_wellNested_count {ops : List PPOp} (hw : WellNested ops) :
    ∀ s : pt_fnstack, 0 ≤ s.count → (runPP s ops).count = s.count := by
  induction hw with
  | nil => intro s _; rfl
  | seq hw1 hw2 ih1 ih2 =>
      intro s hs
      rw [runPP_append]
      rw [ih2 _ (runPP_count_nonneg _ s hs)]
      exact ih1 s hs
  | @wrap t f hw ih =>
      intro s hs
      have hstep : runPP s (PPOp.push f :: t ++ [PPOp.pop]) =
          runPP (runPP (pallene_tracer_frameenter s f) t) [PPOp.pop] := by
        rw [← runPP_append]
        rfl
      rw [hstep]
      have hmid : (runPP (pallene_tracer_frameenter s f) t).count = s.count + 1 := by
        rw [ih (pallene_tracer_frameenter s f)
          (by simp only [pallene_tracer_frameenter]; omega)]
        rfl
      show (pallene_tracer_frameexit (runPP (pallene_tracer_frameenter s f) t)).count
        = s.count
      simp only [pallene_tracer_frameexit]
      rw [hmid, if_pos (by omega)]
      ring

/-- Claim C2: `pallene_tracer_frameenter` increments `count` by exactly
1; below capacity the frame is written at index `count`, at or above
capacity no array slot is modified; and pushing `capacity + k` frames
(`k > 0`) from an empty stack leaves `count = capacity + k` with the
first `capacity` slots holding the pushed frames and every slot at or
above capacity untouched.  The operation is a total function: no error
is raised. -/
theorem frameenter_increments_and_overflow (s s0 : pt_fnstack) (f : pt_frame)
    (fs : Nat → pt_frame) (k : Nat) (hs0 : s0.count = 0) (hk : 0 < k) :
    (pallene_tracer_frameenter s f).count = s.count + 1 ∧
    (s.count < PALLENE_TRACER_MAX_CALLSTACK →
      (pallene_tracer_frameenter s f).stack s.count = f) ∧
    (¬ s.count < PALLENE_TRACER_MAX_CALLSTACK →
      (pallene_tracer_frameenter s f).stack = s.stack) ∧
    (frameenterN s0 fs (PALLENE_TRACER_MAX_CALLSTACK.toNat + k)).count
      = PALLENE_TRACER_MAX_CALLSTACK + (k : Int) ∧
    (∀ j : Int, PALLENE_TRACER_MAX_CALLSTACK ≤ j →
      (frameenterN s0 fs (PALLENE_TRACER_MAX_CALLSTACK.toNat + k)).stack j
        = s0.stack j) ∧
    (∀ j : Nat, (j : Int) < PALLENE_TRACER_MAX_CALLSTACK →
      (frameenterN s0 fs (PALLENE_TRACER_MAX_CALLSTACK.toNat + k)).stack j
        = fs j) := by
  refine ⟨rfl, ?_, ?_, ?_, ?_, ?_⟩
  · intro h
    simp [pallene_tracer_frameenter, if_pos h, writeFrame]
  · intro h
    simp only [pallene_tracer_frameenter, if_neg h]
  · rw [frameenterN_count, hs0]
    simp only [PALLENE_TRACER_MAX_CALLSTACK]
    push_cast
    norm_num
  · intro j hj
    exact frameenterN_stack_high s0 fs j hj _
  · intro j hj
    apply frameenterN_stack_written s0 fs hs0
    · simp only [PALLENE_TRACER_MAX_CALLSTACK] at hj ⊢
      omega
    · exact hj

/-- Claim C2 witness: at the concrete empty stack, pushing
`100000 + 1` copies of `cFrame` leaves `count = 100001`, with slots
`0 .. 99999` holding `cFrame` and slots at or above `100000` untouched,
and a single push writes at index 0 and increments `count` to 1. -/
theorem frameenter_increments_and_overflow_witness :
    (pallene_tracer_frameenter freshFnstack cFrame).count = freshFnstack.count + 1 ∧
    (freshFnstack.count < PALLENE_TRACER_MAX_CALLSTACK →
      (pallene_tracer_frameenter freshFnstack cFrame).stack freshFnstack.count = cFrame) ∧
    (¬ freshFnstack.count < PALLENE_TRACER_MAX_CALLSTACK →
      (pallene_tracer_frameenter freshFnstack cFrame).stack = freshFnstack.stack) ∧
    (frameenterN freshFnstack (fun _ => cFrame) (PALLENE_TRACER_MAX_CALLSTACK.toNat + 1)).count
      = PALLENE_TRACER_MAX_CALLSTACK + ((1 : Nat) : Int) ∧
    (∀ j : Int, PALLENE_TRACER_MAX_CALLSTACK ≤ j →
      (frameenterN freshFnstack (fun _ => cFrame) (PALLENE_TRACER_MAX_CALLSTACK.toNat + 1)).stack j
        = freshFnstack.stack j) ∧
    (∀ j : Nat, (j : Int) < PALLENE_TRACER_MAX_CALLSTACK →
      (frameenterN freshFnstack (fun _ => cFrame) (PALLENE_TRACER_MAX_CALLSTACK.toNat + 1)).stack j
        = cFrame) :=
  frameenter_increments_and_overflow freshFnstack freshFnstack cFrame (fun _ => cFrame) 1
    rfl (by decide)

/-- Claim C5: for every shadow stack state (with the data-model
invariant `0 ≤ count`) and every well-nested sequence of push and pop
operations, running the sequence returns `count` to exactly its value
before the sequence. -/
theorem wellNested_push_pop_preserves_count (ops : List PPOp) (s : pt_fnstack)
    (hw : WellNested ops) (hs : 0 ≤ s.count) :
    (runPP s ops).count = s.count :=
  runPP_wellNested_count hw s hs

/-- Claim C5 witness: `pop ∘ push` restores `count` on the concrete
empty stack. -/
theorem wellNested_push_pop_preserves_count_witness :
    (runPP freshFnstack [PPOp.push cFrame, PPOp.pop]).count = freshFnstack.count :=
  wellNested_push_pop_preserves_count [PPOp.push cFrame, PPOp.pop] freshFnstack
    (WellNested.wrap cFrame WellNested.nil) (by decide)

/-- Claim C7: when `count > 0`, `pallene_tracer_setline` overwrites the
`line` field of the top frame `stack[count - 1]`; when `count = 0` it is
a no-op, returning the state unchanged. -/
theorem setline_writes_top_or_noop (s : pt_fnstack) (line : Int) :
    (0 < s.count → pallene_tracer_setline s line = { s with stack := writeFrame s.stack (s.count - 1) { s.stack (s.count - 1) with line := line } }) ∧
    (s.count = 0 → pallene_tracer_setline s line = s) := by
  constructor
  · intro h
    unfold pallene_tracer_setline
    rw [if_pos (by omega)]
  · intro h
    unfold pallene_tracer_setline
    rw [if_neg (by omega)]

/-- Claim C7 witness: `setline 7` on a one-frame stack rewrites the top
frame's line, and on the empty stack it is the identity. -/
theorem setline_writes_top_or_noop_witness :
    pallene_tracer_setline oneFrameStack 7 = { oneFrameStack with stack := writeFrame oneFrameStack.stack (oneFrameStack.count - 1) { oneFrameStack.stack (oneFrameStack.count - 1) with line := 7 } } ∧
    pallene_tracer_setline freshFnstack 7 = freshFnstack :=
  ⟨(setline_writes_top_or_noop oneFrameStack 7).1 (by decide),
   (setline_writes_top_or_noop freshFnstack 7).2 rfl⟩

/-- Claim C8: `pallene_tracer_frameexit` decrements `count` by exactly 1
when `count > 0`, leaves `count` at 0 when `count = 0` (saturating,
never negative), and is a total function: it never raises an error. -/
theorem frameexit_saturating_decrement (s : pt_fnstack) :
    (0 < s.count → (pallene_tracer_frameexit s).count = s.count - 1) ∧
    (s.count = 0 → (pallene_tracer_frameexit s).count = 0) ∧
    (0 ≤ s.count → 0 ≤ (pallene_tracer_frameexit s).count) := by
  refine ⟨?_, ?_, ?_⟩ <;>
    · intro h
      simp only [pallene_tracer_frameexit]
      by_cases hc : s.count > 0 <;> simp [hc] <;> omega

/-- Claim C8 witness: pop on a one-frame stack gives `count = 0`; pop on
the empty stack keeps `count = 0` and nonnegative. -/
theorem frameexit_saturating_decrement_witness :
    (pallene_tracer_frameexit oneFrameStack).count = oneFrameStack.count - 1 ∧
    (pallene_tracer_frameexit freshFnstack).count = 0 ∧
    0 ≤ (pallene_tracer_frameexit freshFnstack).count :=
  ⟨(frameexit_saturating_decrement oneFrameStack).1 (by decide),
   (frameexit_saturating_decrement freshFnstack).2.1 rfl,
   (frameexit_saturating_decrement freshFnstack).2.2 (by decide)⟩

/-- Claim C9: on a state with `1 ≤ count ≤ capacity`,
`pallene_tracer_setline` modifies only the `line` field of the top frame
`stack[count - 1]`: `count` is unchanged, every other slot is unchanged,
and the top frame's `type` and `shared` fields are unchanged. -/
theorem setline_modifies_only_top_line (s : pt_fnstack) (line : Int)
    (h1 : 1 ≤ s.count) (h2 : s.count ≤ PALLENE_TRACER_MAX_CALLSTACK) :
    (pallene_tracer_setline s line).count = s.count ∧
    ((pallene_tracer_setline s line).stack (s.count - 1)).line = line ∧
    ((pallene_tracer_setline s line).stack (s.count - 1)).type
      = (s.stack (s.count - 1)).type ∧
    ((pallene_tracer_setline s line).stack (s.count - 1)).shared
      = (s.stack (s.count - 1)).shared ∧
    ∀ j, j ≠ s.count - 1 → (pallene_tracer_setline s line).stack j = s.stack j := by
  unfold pallene_tracer_setline
  rw [if_pos (by omega)]
  refine ⟨rfl, ?_, ?_, ?_, ?_⟩
  · simp [writeFrame]
  · simp [writeFrame]
  · simp [writeFrame]
  · intro j hj
    simp only [writeFrame]
    rw [if_neg hj]

/-- Claim C9 witness: `setline 9` on the concrete one-frame stack keeps
`count`, `type` and `shared`, sets the top line to 9, and leaves slot 5
(an index other than the top) unchanged. -/
theorem setline_modifies_only_top_line_witness :
    (pallene_tracer_setline oneFrameStack 9).count = oneFrameStack.count ∧
    ((pallene_tracer_setline oneFrameStack 9).stack (oneFrameStack.count - 1)).line = 9 ∧
    ((pallene_tracer_setline oneFrameStack 9).stack (oneFrameStack.count - 1)).type
      = (oneFrameStack.stack (oneFrameStack.count - 1)).type ∧
    ((pallene_tracer_setline oneFrameStack 9).stack (oneFrameStack.count - 1)).shared
      = (oneFrameStack.stack (oneFrameStack.count - 1)).shared ∧
    ∀ j, j ≠ oneFrameStack.count - 1 →
      (pallene_tracer_setline oneFrameStack 9).stack j = oneFrameStack.stack j :=
  setline_modifies_only_top_line oneFrameStack 9 (by decide) (by decide)

/- ---------------- Shared lemma about initialisation ---------------- -/

/-- On a state whose registry container slot is empty, `pallene_tracer_init`
publishes a fresh stack with `count = 0` at the returned address. -/
theorem init_fresh_getStack (L : lua_State) (mem : Int → pt_frame)
    (hL : L.reg_container = none) :
    (pallene_tracer_init L mem).1.getStack (pallene_tracer_init L mem).2 =
      some { stack := mem, count := 0 } := by
  simp only [pallene_tracer_init, hL, lua_State.getStack]
  exact List.get?_concat_length _ _

/-- Claim C3 (amended): under the reachable-state invariant `0 ≤ count`,
every index accessed by push and pop is in bounds unconditionally; every
index accessed by set_line is in bounds provided `count ≤ capacity`; and
every index read by the finalizer's scan is in bounds provided
`count ≤ capacity` and some index `0 ≤ i < count` holds a Lua-type
frame.  (Without those provisos the claim is false: see the
counterexample theorem.) -/
theorem tracer_accesses_in_bounds (s : pt_fnstack) (i : Int) (hc : 0 ≤ s.count) :
    (∀ a ∈ frameenterAccess s, inBounds a) ∧
    (∀ a ∈ frameexitAccess s, inBounds a) ∧
    (s.count ≤ PALLENE_TRACER_MAX_CALLSTACK → ∀ a ∈ setlineAccess s, inBounds a) ∧
    (0 ≤ i → i < s.count → s.count ≤ PALLENE_TRACER_MAX_CALLSTACK →
      (s.stack i).type = frame_type.PALLENE_TRACER_FRAME_TYPE_LUA →
      ∀ a ∈ finalizerAccess s s.count.toNat, inBounds a) := by
  refine ⟨?_, ?_, ?_, ?_⟩
  · intro a ha
    unfold frameenterAccess at ha
    by_cases h : s.count < PALLENE_TRACER_MAX_CALLSTACK
    · rw [if_pos h] at ha
      simp only [List.mem_singleton] at ha
      subst ha
      simp only [inBounds]
      omega
    · rw [if_neg h] at ha
      simp at ha
  · intro a ha
    simp [frameexitAccess] at ha
  · intro hle a ha
    unfold setlineAccess at ha
    by_cases h : s.count ≠ 0
    · rw [if_pos h] at ha
      simp only [List.mem_singleton] at ha
      subst ha
      simp only [inBounds]
      omega
    · rw [if_neg h] at ha
      simp at ha
  · intro h0 hic hle hlua a ha
    have hr := scanAccess_mem_range s.stack i hlua s.count.toNat (s.count - 1)
      (by omega) a ha
    simp only [inBounds]
    omega

/-- Claim C3 counterexample: the sequence "initialize, then run the
unwind finalizer" is a sequence of engine operations from the freshly
initialised state, and the finalizer's scan immediately reads array
index `-1` (`count - 1` with `count = 0`), which is out of bounds.  The
claim's universal bounds statement is therefore false as stated. -/
theorem finalizer_on_fresh_stack_reads_negative_index :
    finalizerAccess freshFnstack 1 = [-1] ∧ ¬ inBounds (-1) := by
  exact ⟨by decide, by decide⟩

/-- Claim C3 (amended) witness: on the concrete stack
`[HostCallback, NativeDetails, NativeDetails, NativeDetails]` with
`count = 4`, all pushes, pops, set_line calls and the finalizer scan
access only in-bounds indices. -/
theorem tracer_accesses_in_bounds_witness :
    (∀ a ∈ frameenterAccess stackLCCC, inBounds a) ∧
    (∀ a ∈ frameexitAccess stackLCCC, inBounds a) ∧
    (stackLCCC.count ≤ PALLENE_TRACER_MAX_CALLSTACK →
      ∀ a ∈ setlineAccess stackLCCC, inBounds a) ∧
    (0 ≤ (0 : Int) → (0 : Int) < stackLCCC.count →
      stackLCCC.count ≤ PALLENE_TRACER_MAX_CALLSTACK →
      (stackLCCC.stack 0).type = frame_type.PALLENE_TRACER_FRAME_TYPE_LUA →
      ∀ a ∈ finalizerAccess stackLCCC stackLCCC.count.toNat, inBounds a) :=
  tracer_accesses_in_bounds stackLCCC 0 (by decide)

/-- Claim C4: `pallene_tracer_init` is idempotent per VM instance: on a
state with an empty registry container slot, the first call creates the
stack with `count = 0` (the capacity constant being
`PALLENE_TRACER_MAX_CALLSTACK = 100000`), publishes it under the
reserved registry key, and a second call returns the identical state and
the identical reference, so a push through the first reference is
visible when reading through the second. -/
theorem init_idempotent_same_stack (L : lua_State) (mem mem2 : Int → pt_frame)
    (f : pt_frame) (hL : L.reg_container = none) :
    PALLENE_TRACER_MAX_CALLSTACK = 100000 ∧
    (pallene_tracer_init L mem).1.getStack (pallene_tracer_init L mem).2 =
      some { stack := mem, count := 0 } ∧
    (pallene_tracer_init L mem).1.reg_container = some (pallene_tracer_init L mem).2 ∧
    pallene_tracer_init (pallene_tracer_init L mem).1 mem2 = pallene_tracer_init L mem ∧
    (frameenterAt (pallene_tracer_init L mem).1 (pallene_tracer_init L mem).2 f).getStack
        (pallene_tracer_init (pallene_tracer_init L mem).1 mem2).2 =
      some (pallene_tracer_frameenter { stack := mem, count := 0 } f) := by
  refine ⟨rfl, init_fresh_getStack L mem hL, ?_, ?_, ?_⟩
  · simp only [pallene_tracer_init, hL]
  · simp only [pallene_tracer_init, hL]
  · have hget : (L.udata ++ [({ stack := mem, count := 0 } : pt_fnstack)]).get?
        L.udata.length = some { stack := mem, count := 0 } :=
      List.get?_concat_length _ _
    simp only [pallene_tracer_init, hL, frameenterAt, lua_State.getStack, hget]
    rw [List.get?_set_eq_of_lt]
    simp

/-- Claim C4 witness: initialising a fresh Lua state twice yields the
same stack reference, with a push through the first visible through the
second. -/
theorem init_idempotent_same_stack_witness :
    PALLENE_TRACER_MAX_CALLSTACK = 100000 ∧
    (pallene_tracer_init freshLua memLCCC).1.getStack
        (pallene_tracer_init freshLua memLCCC).2 =
      some { stack := memLCCC, count := 0 } ∧
    (pallene_tracer_init freshLua memLCCC).1.reg_container =
      some (pallene_tracer_init freshLua memLCCC).2 ∧
    pallene_tracer_init (pallene_tracer_init freshLua memLCCC).1 memLCLC =
      pallene_tracer_init freshLua memLCCC ∧
    (frameenterAt (pallene_tracer_init freshLua memLCCC).1
        (pallene_tracer_init freshLua memLCCC).2 cFrame).getStack
        (pallene_tracer_init (pallene_tracer_init freshLua memLCCC).1 memLCLC).2 =
      some (pallene_tracer_frameenter { stack := memLCCC, count := 0 } cFrame) :=
  init_idempotent_same_stack freshLua memLCCC memLCLC cFrame rfl

/-- Claim C10 counterexample: `pallene_tracer_setline` does modify the
frames array contents: on a stack holding one frame with line 0, setting
line 5 changes the frame stored at index 0.  The claim's assertion that
setline never modifies the frames array is therefore false. -/
theorem setline_writes_array_contents :
    (pallene_tracer_setline oneFrameStack 5).stack 0 ≠ oneFrameStack.stack 0 := by
  decide

/-- Claim C10 (amended): `count ≥ 0` holds after `pallene_tracer_init`
(which creates the stack with `count = 0`) and is preserved by
`pallene_tracer_frameenter`, `pallene_tracer_setline` and
`pallene_tracer_frameexit`; `pallene_tracer_frameexit` changes only
`count`, never the frames array; and `pallene_tracer_setline` modifies
at most the slot `count - 1` of the frames array (not none, as the
claim stated: see the counterexample theorem). -/
theorem count_nonneg_and_frameexit_pure (s : pt_fnstack) (f : pt_frame) (line : Int)
    (L : lua_State) (mem : Int → pt_frame)
    (hs : 0 ≤ s.count) (hL : L.reg_container = none) :
    0 ≤ (pallene_tracer_frameenter s f).count ∧
    (pallene_tracer_setline s line).count = s.count ∧
    0 ≤ (pallene_tracer_frameexit s).count ∧
    (pallene_tracer_init L mem).1.getStack (pallene_tracer_init L mem).2 =
      some { stack := mem, count := 0 } ∧
    (pallene_tracer_frameexit s).stack = s.stack ∧
    ∀ j, j ≠ s.count - 1 → (pallene_tracer_setline s line).stack j = s.stack j := by
  refine ⟨?_, ?_, ?_, init_fresh_getStack L mem hL, rfl, ?_⟩
  · simp only [pallene_tracer_frameenter]
    omega
  · unfold pallene_tracer_setline
    by_cases h : s.count ≠ 0
    · rw [if_pos h]
    · rw [if_neg h]
  · simp only [pallene_tracer_frameexit]
    by_cases h : s.count > 0 <;> simp [h] <;> omega
  · intro j hj
    unfold pallene_tracer_setline
    by_cases h : s.count ≠ 0
    · rw [if_pos h]
      simp only [writeFrame]
      rw [if_neg hj]
    · rw [if_neg h]

/-- Claim C10 (amended) witness: the invariants at a concrete one-frame
stack and a fresh Lua state. -/
theorem count_nonneg_and_frameexit_pure_witness :
    0 ≤ (pallene_tracer_frameenter oneFrameStack cFrame).count ∧
    (pallene_tracer_setline oneFrameStack 3).count = oneFrameStack.count ∧
    0 ≤ (pallene_tracer_frameexit oneFrameStack).count ∧
    (pallene_tracer_init freshLua memLCCC).1.getStack
        (pallene_tracer_init freshLua memLCCC).2 =
      some { stack := memLCCC, count := 0 } ∧
    (pallene_tracer_frameexit oneFrameStack).stack = oneFrameStack.stack ∧
    ∀ j, j ≠ oneFrameStack.count - 1 →
      (pallene_tracer_setline oneFrameStack 3).stack j = oneFrameStack.stack j :=
  count_nonneg_and_frameexit_pure oneFrameStack cFrame 3 freshLua memLCCC
    (by decide) rfl
